import Mathlib

/-!
# Verification of the nearcore archival (cold) storage layer

Shallow embedding of `core/store/src/archive/mod.rs`, `core/store/src/archiver.rs`
and `core/store/src/archive/gcloud.rs`, together with models of the pieces of the
repository those files depend on but that are outside the translated sources
(the column registry, the refcount codec, the `Tip` record and its borsh
serialization, and the external-storage contract); those models carry a
`Modelled from the spec:` doc comment.

Byte strings are `List Nat` (each entry `< 256`), refcounts are `Int`
(the source uses `i64`), and Rust `io::Result` plus panics/asserts are
modelled by the `Outcome` type below.
-/

/-- Result of a fallible archival operation: `ok` mirrors Rust `Ok`,
`err` mirrors a propagated `io::Error`, and `fatal` mirrors a process
abort (`panic!` / `assert!` / `unreachable!` / `.unwrap()` on an `Err`). -/
inductive Outcome (α : Type) where
  | ok (a : α)
  | err (e : String)
  | fatal (msg : String)
  deriving DecidableEq, Repr

/-- Little-endian value of a byte list: `valLE [b0, b1, …] = b0 + 256*b1 + …`
(base is a parameter). -/
def valLE (base : Nat) : List Nat → Nat
  | [] => 0
  | d :: t => d + base * valLE base t

/-- `w`-byte little-endian encoding of `n` in the given base. -/
def leBytes (base : Nat) : Nat → Nat → List Nat
  | 0, _ => []
  | w + 1, n => n % base :: leBytes base w (n / base)

/-- Little-endian base-`b` digits of `n`, computed with structural fuel so that
the definition reduces by `rfl`/`decide` (unlike `Nat.digits`, which uses
well-founded recursion). -/
def digitsFuel (base : Nat) : Nat → Nat → List Nat
  | _, 0 => []
  | 0, _ => []
  | n + 1, f + 1 => (n + 1) % base :: digitsFuel base ((n + 1) / base) f

/-- Little-endian base-`b` digits of `n` (executable form of `Nat.digits`). -/
def digitsLE (base n : Nat) : List Nat :=
  digitsFuel base n n

theorem valLE_eq_ofDigits (base : Nat) (l : List Nat) :
    valLE base l = Nat.ofDigits base l := by
  induction l with
  | nil => simp [valLE, Nat.ofDigits]
  | cons d t ih => simp [valLE, Nat.ofDigits, ih]

theorem digitsFuel_eq_digits (base : Nat) (hb : 1 < base) :
    ∀ f n, n ≤ f → digitsFuel base n f = Nat.digits base n := by
  intro f
  induction f with
  | zero =>
    intro n hn
    interval_cases n
    simp [digitsFuel]
  | succ f ih =>
    intro n hn
    match n with
    | 0 => simp [digitsFuel]
    | n + 1 =>
      have hdiv : (n + 1) / base ≤ f := by
        have h1 : (n + 1) / base < n + 1 := Nat.div_lt_self (Nat.succ_pos n) hb
        omega
      rw [digitsFuel, ih _ hdiv, Nat.digits_def' hb (Nat.succ_pos n)]

theorem digitsLE_eq_digits (base : Nat) (hb : 1 < base) (n : Nat) :
    digitsLE base n = Nat.digits base n :=
  digitsFuel_eq_digits base hb n n le_rfl

theorem valLE_append (base : Nat) (l1 l2 : List Nat) :
    valLE base (l1 ++ l2) = valLE base l1 + base ^ l1.length * valLE base l2 := by
  induction l1 with
  | nil => simp [valLE]
  | cons d t ih => simp [valLE, ih, pow_succ]; ring

theorem leBytes_length (base w n : Nat) : (leBytes base w n).length = w := by
  induction w generalizing n with
  | zero => rfl
  | succ w ih => simp [leBytes, ih]

theorem valLE_leBytes (base w n : Nat) :
    valLE base (leBytes base w n) = n % base ^ w := by
  induction w generalizing n with
  | zero => simp [leBytes, valLE, Nat.mod_one]
  | succ w ih =>
    rw [leBytes, valLE, ih, pow_succ, Nat.mul_comm (base ^ w) base, Nat.mod_mul]

theorem valLE_leBytes_of_lt (base w n : Nat) (hn : n < base ^ w) :
    valLE base (leBytes base w n) = n := by
  rw [valLE_leBytes base w n, Nat.mod_eq_of_lt hn]

/-!
## Base-58 encoding (Bitcoin alphabet)

`FilesystemArchiver::get_path` and `ArchivalStore::get_path` both compute the
filename of a key as `bs58::encode(key).with_alphabet(bs58::Alphabet::BITCOIN)`.
-/

/-- Modelled from the spec: the `bs58` crate's Bitcoin alphabet
("a reversible, filesystem/URL-safe text encoding of the raw key bytes,
base-58 over the Bitcoin alphabet"); the crate itself is outside the
translated sources. -/
def b58Alphabet : List Char :=
  ['1', '2', '3', '4', '5', '6', '7', '8', '9',
   'A', 'B', 'C', 'D', 'E', 'F', 'G', 'H', 'J', 'K', 'L', 'M', 'N',
   'P', 'Q', 'R', 'S', 'T', 'U', 'V', 'W', 'X', 'Y', 'Z',
   'a', 'b', 'c', 'd', 'e', 'f', 'g', 'h', 'i', 'j', 'k', 'm', 'n',
   'o', 'p', 'q', 'r', 's', 't', 'u', 'v', 'w', 'x', 'y', 'z']

/-- Number of leading zero entries of a byte list. -/
def leadZeros : List Nat → Nat
  | [] => 0
  | b :: t => if b = 0 then leadZeros t + 1 else 0

/-- Modelled from the spec: base-58 digit values (most significant first) of a
byte string, as produced by the `bs58` crate: one `0` digit per leading zero
byte, followed by the big-endian base-58 digits of the byte string's value. -/
def b58Digits (k : List Nat) : List Nat :=
  List.replicate (leadZeros k) 0 ++ (digitsLE 58 (valLE 256 k.reverse)).reverse

/-- Modelled from the spec: base-58 (Bitcoin alphabet) encoding of a byte
string, i.e. `bs58::encode(key).with_alphabet(BITCOIN).into_string()`. -/
def bs58_encode (k : List Nat) : String :=
  ⟨(b58Digits k).map (fun d => b58Alphabet.getD d '1')⟩

/-- Inverse of `b58Digits`, used to prove injectivity of the encoding. -/
def b58DigitsDecode (ds : List Nat) : List Nat :=
  List.replicate (leadZeros ds) 0 ++ (digitsLE 256 (valLE 58 ds.reverse)).reverse

theorem valLE_append_zero (base : Nat) (l : List Nat) :
    valLE base (l ++ [0]) = valLE base l := by
  rw [valLE_append]
  simp [valLE]

theorem b58Digits_cons_zero (t : List Nat) :
    b58Digits (0 :: t) = 0 :: b58Digits t := by
  simp [b58Digits, leadZeros, List.reverse_cons, valLE_append_zero, List.replicate_succ]

theorem b58DigitsDecode_cons_zero (t : List Nat) :
    b58DigitsDecode (0 :: t) = 0 :: b58DigitsDecode t := by
  simp [b58DigitsDecode, leadZeros, List.reverse_cons, valLE_append_zero, List.replicate_succ]

theorem b58Digits_decode_round (k : List Nat) (hk : ∀ b ∈ k, b < 256) :
    b58DigitsDecode (b58Digits k) = k := by
  induction k with
  | nil => rfl
  | cons b t ih =>
    by_cases hb : b = 0
    · subst hb
      rw [b58Digits_cons_zero, b58DigitsDecode_cons_zero,
        ih (fun x hx => hk x (List.mem_cons_of_mem _ hx))]
    · -- head nonzero: no leading zeros, the whole list is the base-58 digits
      -- of the big-endian value, which is nonzero.
      have h58 : (1 : Nat) < 58 := by norm_num
      have h256 : (1 : Nat) < 256 := by norm_num
      set N : Nat := valLE 256 ((b :: t).reverse) with hN
      have hNval : N = Nat.ofDigits 256 ((b :: t).reverse) := by
        rw [hN, valLE_eq_ofDigits]
      have hrevlt : ∀ l ∈ (b :: t).reverse, l < 256 := by
        intro l hl
        exact hk l (List.mem_reverse.mp hl)
      have hrevne : (b :: t).reverse ≠ [] := by simp
      have hrevlast : ∀ h : (b :: t).reverse ≠ [], ((b :: t).reverse).getLast h ≠ 0 := by
        intro h
        rw [List.getLast_reverse]
        exact hb
      have hdig : Nat.digits 256 N = (b :: t).reverse := by
        rw [hNval]
        exact Nat.digits_ofDigits 256 h256 _ hrevlt hrevlast
      have hNne : N ≠ 0 := by
        intro h0
        have := hdig
        rw [h0, Nat.digits_zero] at this
        exact hrevne this.symm
      have hlz : leadZeros (b :: t) = 0 := by simp [leadZeros, hb]
      have hds : b58Digits (b :: t) = (Nat.digits 58 N).reverse := by
        rw [b58Digits, hlz, digitsLE_eq_digits 58 h58]
        simp only [List.replicate_zero, List.nil_append, hN]
      -- the decoded digit list starts with the (nonzero) most significant digit
      have hdne : Nat.digits 58 N ≠ [] := Nat.digits_ne_nil_iff_ne_zero.mpr hNne
      have hlast : (Nat.digits 58 N).getLast hdne ≠ 0 :=
        Nat.getLast_digit_ne_zero 58 hNne
      have hlz2 : leadZeros ((Nat.digits 58 N).reverse) = 0 := by
        rcases hrev : (Nat.digits 58 N).reverse with _ | ⟨d, ds⟩
        · simp [leadZeros]
        · have hd0 : d ≠ 0 := by
            have h1 : (Nat.digits 58 N).getLast? = some d := by
              rw [← List.head?_reverse, hrev]
              rfl
            have h2 : (Nat.digits 58 N).getLast hdne = d := by
              rw [List.getLast?_eq_getLast _ hdne, Option.some.injEq] at h1
              exact h1
            rw [← h2]
            exact hlast
          simp [leadZeros, hd0]
      rw [hds, b58DigitsDecode, hlz2, List.replicate_zero, List.nil_append,
        List.reverse_reverse]
      have hofd : valLE 58 (Nat.digits 58 N) = N := by
        rw [valLE_eq_ofDigits, Nat.ofDigits_digits]
      rw [hofd, digitsLE_eq_digits 256 h256, hdig, List.reverse_reverse]

theorem b58Digits_injective (k1 k2 : List Nat)
    (h1 : ∀ b ∈ k1, b < 256) (h2 : ∀ b ∈ k2, b < 256)
    (h : b58Digits k1 = b58Digits k2) : k1 = k2 := by
  have := congrArg b58DigitsDecode h
  rwa [b58Digits_decode_round k1 h1, b58Digits_decode_round k2 h2] at this

theorem b58Digits_lt (k : List Nat) : ∀ d ∈ b58Digits k, d < 58 := by
  intro d hd
  rw [b58Digits, digitsLE_eq_digits 58 (by norm_num)] at hd
  rcases List.mem_append.mp hd with hmem | hmem
  · have := List.eq_of_mem_replicate hmem
    omega
  · exact Nat.digits_lt_base (by norm_num) (List.mem_reverse.mp hmem)

theorem b58Alphabet_getD_inj :
    ∀ d1 < 58, ∀ d2 < 58,
      b58Alphabet.getD d1 '1' = b58Alphabet.getD d2 '1' → d1 = d2 := by
  decide

theorem map_inj_of_lt (f : Nat → Char) (bound : Nat)
    (hf : ∀ d1 < bound, ∀ d2 < bound, f d1 = f d2 → d1 = d2) :
    ∀ l1 l2 : List Nat, (∀ d ∈ l1, d < bound) → (∀ d ∈ l2, d < bound) →
      l1.map f = l2.map f → l1 = l2 := by
  intro l1
  induction l1 with
  | nil =>
    intro l2 _ _ h
    cases l2 with
    | nil => rfl
    | cons b t => simp at h
  | cons a t1 ih =>
    intro l2 hb1 hb2 h
    cases l2 with
    | nil => simp at h
    | cons b t2 =>
      simp only [List.map_cons, List.cons.injEq] at h
      have ha : a = b :=
        hf a (hb1 a (List.mem_cons_self a t1)) b (hb2 b (List.mem_cons_self b t2)) h.1
      have ht : t1 = t2 :=
        ih t2 (fun d hd => hb1 d (List.mem_cons_of_mem _ hd))
          (fun d hd => hb2 d (List.mem_cons_of_mem _ hd)) h.2
      rw [ha, ht]

/-- Injectivity of the base-58 encoding over byte strings (any length,
including the empty string). -/
theorem bs58_encode_injective (k1 k2 : List Nat)
    (h1 : ∀ b ∈ k1, b < 256) (h2 : ∀ b ∈ k2, b < 256)
    (h : bs58_encode k1 = bs58_encode k2) : k1 = k2 := by
  have hdata : (b58Digits k1).map (fun d => b58Alphabet.getD d '1') =
      (b58Digits k2).map (fun d => b58Alphabet.getD d '1') := by
    have := congrArg String.data h
    simpa [bs58_encode] using this
  exact b58Digits_injective k1 k2 h1 h2
    (map_inj_of_lt _ 58 b58Alphabet_getD_inj _ _ (b58Digits_lt k1) (b58Digits_lt k2) hdata)

/-!
## Column registry, operations, refcount codec, head record

`DBCol`, `DBOp`, the refcount codec (`core/store/src/db/refcount.rs`), the
`HEAD`/`COLD_HEAD` keys and the `Tip` record live outside the translated
source files, so they are modelled from the spec.
-/

/-- Modelled from the spec: "a closed, compile-time enumeration of logical
data columns" — the cold-eligible columns named in the source's
`cold_column_dirname` match, the reserved `BlockMisc` column, and two
representative non-cold columns (`DbVersion`, `BlockHeader`). -/
inductive DBCol where
  | BlockMisc
  | Block
  | BlockExtra
  | BlockInfo
  | BlockPerHeight
  | ChunkExtra
  | ChunkHashesByHeight
  | Chunks
  | IncomingReceipts
  | NextBlockHashes
  | OutcomeIds
  | OutgoingReceipts
  | Receipts
  | State
  | StateChanges
  | StateChangesForSplitStates
  | StateHeaders
  | TransactionResultForBlock
  | Transactions
  | StateShardUIdMapping
  | DbVersion
  | BlockHeader
  deriving DecidableEq, Repr

/-- Modelled from the spec: the registry "defines which columns are
cold-eligible"; `BlockMisc` is reserved (managed by the archival storage but
not marked cold), `DbVersion` and `BlockHeader` are hot-only. -/
def DBCol.is_cold : DBCol → Bool
  | .BlockMisc => false
  | .DbVersion => false
  | .BlockHeader => false
  | _ => true

/-- The `strum`-derived string name of a column (`<&str>::from(col)`),
used by `FilesystemArchiver::to_dirname`. -/
def DBCol.name : DBCol → String
  | .BlockMisc => "BlockMisc"
  | .Block => "Block"
  | .BlockExtra => "BlockExtra"
  | .BlockInfo => "BlockInfo"
  | .BlockPerHeight => "BlockPerHeight"
  | .ChunkExtra => "ChunkExtra"
  | .ChunkHashesByHeight => "ChunkHashesByHeight"
  | .Chunks => "Chunks"
  | .IncomingReceipts => "IncomingReceipts"
  | .NextBlockHashes => "NextBlockHashes"
  | .OutcomeIds => "OutcomeIds"
  | .OutgoingReceipts => "OutgoingReceipts"
  | .Receipts => "Receipts"
  | .State => "State"
  | .StateChanges => "StateChanges"
  | .StateChangesForSplitStates => "StateChangesForSplitStates"
  | .StateHeaders => "StateHeaders"
  | .TransactionResultForBlock => "TransactionResultForBlock"
  | .Transactions => "Transactions"
  | .StateShardUIdMapping => "StateShardUIdMapping"
  | .DbVersion => "DbVersion"
  | .BlockHeader => "BlockHeader"

/-- Translation of `cold_column_dirname` (`core/store/src/archive/mod.rs`):
a match mapping each cold column and `BlockMisc` to a directory-name string
(all other columns fall through to `""`), followed by
`dirname.is_empty().then_some(dirname)`. -/
def cold_column_dirname (col : DBCol) : Option String :=
  let dirname : String :=
    match col with
    | .BlockMisc => "BlockMisc"
    | .Block => "Block"
    | .BlockExtra => "BlockExtra"
    | .BlockInfo => "BlockInfo"
    | .BlockPerHeight => "BlockPerHeight"
    | .ChunkExtra => "ChunkExtra"
    | .ChunkHashesByHeight => "ChunkHashesByHeight"
    | .Chunks => "Chunks"
    | .IncomingReceipts => "IncomingReceipts"
    | .NextBlockHashes => "NextBlockHashes"
    | .OutcomeIds => "OutcomeIds"
    | .OutgoingReceipts => "OutgoingReceipts"
    | .Receipts => "Receipts"
    | .State => "State"
    | .StateChanges => "StateChanges"
    | .StateChangesForSplitStates => "StateChangesForSplitStates"
    | .StateHeaders => "StateHeaders"
    | .TransactionResultForBlock => "TransactionResultForBlock"
    | .Transactions => "Transactions"
    | .StateShardUIdMapping => "StateShardUIdMapping"
    | _ => ""
  if dirname.isEmpty then some dirname else none

/-- Modelled from the spec: a transaction is "an ordered batch of operations
(Set, Insert, UpdateRefcount)"; `Delete`, `DeleteAll` and `DeleteRange` also
exist as `DBOp` variants but are unsupported by archival backends. -/
inductive DBOp where
  | set (col : DBCol) (key : List Nat) (value : List Nat)
  | insert (col : DBCol) (key : List Nat) (value : List Nat)
  | updateRefcount (col : DBCol) (key : List Nat) (value : List Nat)
  | delete (col : DBCol) (key : List Nat)
  | deleteAll (col : DBCol)
  | deleteRange (col : DBCol) (from_key : List Nat) (to_key : List Nat)
  deriving DecidableEq, Repr

/-- A transaction: an ordered list of operations. -/
def DBTransaction := List DBOp

/-- Modelled from the spec: the reserved "live head" key (`HEAD_KEY`, the
bytes of `"HEAD"`). -/
def HEAD_KEY : List Nat := [72, 69, 65, 68]

/-- Modelled from the spec: the reserved "persisted cold-head" key
(`COLD_HEAD_KEY`, the bytes of `"COLD_HEAD"`). -/
def COLD_HEAD_KEY : List Nat := [67, 79, 76, 68, 95, 72, 69, 65, 68]

/-- Interpret 8 bytes (little-endian) as a signed 64-bit integer
(two's complement), as `i64::from_le_bytes` does. -/
def rcOfBytes (l : List Nat) : Int :=
  let v := valLE 256 l
  if v < 2 ^ 63 then (v : Int) else (v : Int) - 2 ^ 64

/-- Little-endian two's-complement 8-byte encoding of a signed 64-bit
refcount (`i64::to_le_bytes`). -/
def rcToBytes (rc : Int) : List Nat :=
  leBytes 256 8 (rc.emod (2 ^ 64)).toNat

/-- Modelled from the spec: the refcount codec's
`decode(bytes) -> (Option<raw_value>, refcount)`: a stored value is
`raw_bytes ++ refcount` with a fixed-width (8-byte) count; byte strings
shorter than the count width decode as `(None, 0)`, and a non-positive
count carries no raw value. -/
def decode_value_with_rc (bytes : List Nat) : Option (List Nat) × Int :=
  if bytes.length < 8 then (none, 0)
  else
    let raw := bytes.take (bytes.length - 8)
    let rc := rcOfBytes (bytes.drop (bytes.length - 8))
    if rc ≤ 0 then (none, rc) else (some raw, rc)

/-- Modelled from the spec: the refcount codec's merge operator — fold each
operand's refcount into the running total, taking the raw value from the
first operand that carries one; a total `≤ 0` yields the empty byte string
(meaning "delete"), otherwise raw value and new positive count are
re-encoded. -/
def refcount_merge (existing : Option (List Nat)) (operands : List (List Nat)) : List Nat :=
  let init : Option (List Nat) × Int :=
    match existing with
    | none => (none, 0)
    | some bytes => decode_value_with_rc bytes
  let folded := operands.foldl
    (fun acc op =>
      let dec := decode_value_with_rc op
      (if acc.1.isNone then dec.1 else acc.1, acc.2 + dec.2))
    init
  if folded.2 ≤ 0 then []
  else (folded.1.getD []) ++ rcToBytes folded.2

/-- Modelled from the spec: the head pointer `Tip` is "a small serialized
record (block height/hash/epoch)". -/
structure Tip where
  height : Nat
  last_block_hash : Nat
  epoch_id : Nat
  deriving DecidableEq, Repr

/-- Modelled from the spec: borsh serialization of `Tip` — fixed-width
little-endian fields concatenated in declaration order (`u64` height,
32-byte hash, 32-byte epoch id). -/
def Tip.toBytes (t : Tip) : List Nat :=
  leBytes 256 8 t.height ++ leBytes 256 32 t.last_block_hash ++ leBytes 256 32 t.epoch_id

/-- Modelled from the spec: borsh deserialization of `Tip`
(`Tip::try_from_slice`); fails on any byte string that is not a
well-formed 72-byte record. -/
def Tip.ofBytes (bytes : List Nat) : Option Tip :=
  if bytes.length = 72 then
    some { height := valLE 256 (bytes.take 8),
           last_block_hash := valLE 256 ((bytes.drop 8).take 32),
           epoch_id := valLE 256 (bytes.drop 40) }
  else none

/-- Field bounds under which the fixed-width serialization is lossless. -/
def Tip.Valid (t : Tip) : Prop :=
  t.height < 2 ^ 64 ∧ t.last_block_hash < 2 ^ 256 ∧ t.epoch_id < 2 ^ 256

instance (t : Tip) : Decidable t.Valid := by
  unfold Tip.Valid
  infer_instance

theorem Tip.toBytes_length (t : Tip) : t.toBytes.length = 72 := by
  simp [Tip.toBytes, leBytes_length]

theorem Tip.ofBytes_toBytes (t : Tip) (h : t.Valid) : Tip.ofBytes t.toBytes = some t := by
  obtain ⟨h1, h2, h3⟩ := h
  have h1' : t.height < 256 ^ 8 := by
    rw [show (256 : Nat) ^ 8 = 2 ^ 64 by norm_num]
    exact h1
  have h2' : t.last_block_hash < 256 ^ 32 := by
    rw [show (256 : Nat) ^ 32 = 2 ^ 256 by norm_num]
    exact h2
  have h3' : t.epoch_id < 256 ^ 32 := by
    rw [show (256 : Nat) ^ 32 = 2 ^ 256 by norm_num]
    exact h3
  have lA : (leBytes 256 8 t.height).length = 8 := leBytes_length 256 8 _
  have lB : (leBytes 256 32 t.last_block_hash).length = 32 := leBytes_length 256 32 _
  have lAB : (leBytes 256 8 t.height ++ leBytes 256 32 t.last_block_hash).length = 40 := by
    simp [leBytes_length]
  rw [Tip.ofBytes, if_pos (Tip.toBytes_length t), Tip.toBytes]
  rw [List.drop_left' lAB, List.append_assoc, List.take_left' lA, List.drop_left' lA,
    List.take_left' lB]
  rw [valLE_leBytes_of_lt 256 8 _ h1', valLE_leBytes_of_lt 256 32 _ h2',
    valLE_leBytes_of_lt 256 32 _ h3']

/-!
## Store states

The embedded engine, the external storage and the archiver's filesystem tree
are modelled as association lists so that every observation is executable.
-/

/-- State of the embedded (cold) sorted key/value engine:
`(column, key) ↦ value`. -/
def KVStore : Type := List ((DBCol × List Nat) × List Nat)

instance : DecidableEq KVStore := by
  unfold KVStore
  infer_instance

def kvGet : KVStore → DBCol → List Nat → Option (List Nat)
  | [], _, _ => none
  | (ck, v) :: t, col, key => if ck = (col, key) then some v else kvGet t col key

def kvRemove : KVStore → DBCol → List Nat → KVStore
  | [], _, _ => []
  | (ck, v) :: t, col, key =>
    if ck = (col, key) then kvRemove t col key else (ck, v) :: kvRemove t col key

def kvPut (s : KVStore) (col : DBCol) (key v : List Nat) : KVStore :=
  ((col, key), v) :: kvRemove s col key

/-- Modelled from the spec: the embedded engine's native transactional write
("delegates transactions directly to the underlying sorted key/value engine's
native transactional write, relying on that engine's own handling of
Set/Insert/UpdateRefcount merge operators"). `Delete`/`DeleteAll` unlink
entries; `DeleteRange` is never forwarded by the archival layer (it is
rejected with a fatal error before reaching the engine) and is left as the
identity here. -/
def coldApplyOp (s : KVStore) : DBOp → KVStore
  | .set col key v => kvPut s col key v
  | .insert col key v => kvPut s col key v
  | .updateRefcount col key v =>
    let merged := refcount_merge (kvGet s col key) [v]
    if merged = [] then kvRemove s col key else kvPut s col key merged
  | .delete col key => kvRemove s col key
  | .deleteAll col => s.filter (fun e => decide (e.1.1 ≠ col))
  | .deleteRange _ _ _ => s

/-- `ColdDB::write`: apply the transaction's operations in order. -/
def cold_db_write (s : KVStore) (tx : List DBOp) : KVStore :=
  tx.foldl coldApplyOp s

/-- State of an external storage backend: `path ↦ value` (paths are component
lists, relative to the backend's base). -/
def ExtStore : Type := List (List String × List Nat)

instance : DecidableEq ExtStore := by
  unfold ExtStore
  infer_instance

def extGet : ExtStore → List String → Option (List Nat)
  | [], _ => none
  | (q, v) :: t, p => if q = p then some v else extGet t p

def extRemove : ExtStore → List String → ExtStore
  | [], _ => []
  | (q, v) :: t, p => if q = p then extRemove t p else (q, v) :: extRemove t p

/-- Modelled from the spec: `ExternalStorage::put` persists the value at the
given relative path (the filesystem implementation writes a temp file and
atomically renames it over the target, so the stored value is replaced as a
whole). -/
def extPut (s : ExtStore) (p : List String) (v : List Nat) : ExtStore :=
  (p, v) :: extRemove s p

/-- A file-system entry as seen by `FilesystemArchiver`: either readable
content, or an entry whose `open` fails with a non-`NOENT` OS error. -/
inductive FEntry where
  | content (v : List Nat)
  | osErr (e : String)
  deriving DecidableEq, Repr

/-- The archiver's file tree: `path ↦ entry`; a missing path opens with
`Errno::NOENT`. -/
def FsState : Type := List (List String × FEntry)

instance : DecidableEq FsState := by
  unfold FsState
  infer_instance

def fsLookup : FsState → List String → Option FEntry
  | [], _ => none
  | (q, e) :: t, p => if q = p then some e else fsLookup t p

def fsRemove : FsState → List String → FsState
  | [], _ => []
  | (q, e) :: t, p => if q = p then fsRemove t p else (q, e) :: fsRemove t p

def fsStore (s : FsState) (p : List String) (v : List Nat) : FsState :=
  (p, .content v) :: fsRemove s p

/-- The path components contributed by a filename: `Path::new(&filename)`
contributes no component when the filename is empty. -/
def fileComponent (filename : String) : List String :=
  if filename = "" then [] else [filename]

/-!
## `FilesystemArchiver` (`core/store/src/archiver.rs`)
-/

/-- `FilesystemArchiver::setup_dirs` / `to_dirname`: one subdirectory per
cold column, named by the column's `strum` string name. -/
def FilesystemArchiver.col_to_dir (col : DBCol) : Option (List String) :=
  if col.is_cold then some [col.name] else none

/-- `FilesystemArchiver::get_path`: `col_to_dir` entry (the `.unwrap()` on a
missing entry is a fatal fault, represented by `none`) joined with the
base-58 encoding of the key. -/
def FilesystemArchiver.get_path (col : DBCol) (key : List Nat) : Option (List String) :=
  (FilesystemArchiver.col_to_dir col).map (fun d => d ++ fileComponent (bs58_encode key))

/-- `FilesystemArchiver::write_file`: write the whole value to a temp file and
atomically rename it over the target path. -/
def FilesystemArchiver.write_file (fs : FsState) (col : DBCol) (key v : List Nat) :
    Outcome FsState :=
  match FilesystemArchiver.get_path col key with
  | none => .fatal "no col_to_dir entry for column"
  | some p => .ok (fsStore fs p v)

/-- `FilesystemArchiver::read_file`: open the target path read-only;
`Errno::NOENT` maps to `Ok(None)`, any other OS error is returned as `Err`,
otherwise the full contents are returned. -/
def FilesystemArchiver.read_file (fs : FsState) (col : DBCol) (key : List Nat) :
    Outcome (Option (List Nat)) :=
  match FilesystemArchiver.get_path col key with
  | none => .fatal "no col_to_dir entry for column"
  | some p =>
    match fsLookup fs p with
    | none => .ok none
    | some (.osErr e) => .err e
    | some (.content v) => .ok (some v)

/-- `FilesystemArchiver::delete_file`: `unlinkat` the target path; unlinking a
missing file fails with `NOENT`, returned as `Err`. -/
def FilesystemArchiver.delete_file (fs : FsState) (col : DBCol) (key : List Nat) :
    Outcome FsState :=
  match FilesystemArchiver.get_path col key with
  | none => .fatal "no col_to_dir entry for column"
  | some p =>
    match fsLookup fs p with
    | none => .err "NOENT"
    | some _ => .ok (fsRemove fs p)

/-- One operation of `<FilesystemArchiver as ArchivalStorage>::write`; the
result of each match arm is `.unwrap()`-ed by the source (an `Err` becomes an
abort), except that the `Insert` arm's preliminary `read_file` uses `?` and
propagates its error. `debug` is `cfg!(debug_assertions)`. -/
def FilesystemArchiver.applyOp (debug : Bool) (fs : FsState) : DBOp → Outcome FsState
  | .set col key value =>
    match FilesystemArchiver.write_file fs col key value with
    | .ok fs2 => .ok fs2
    | .err e => .fatal e
    | .fatal m => .fatal m
  | .insert col key value =>
    if debug then
      match FilesystemArchiver.read_file fs col key with
      | .err e => .err e
      | .fatal m => .fatal m
      | .ok (some old_value) =>
        if value = old_value then
          match FilesystemArchiver.write_file fs col key value with
          | .ok fs2 => .ok fs2
          | .err e => .fatal e
          | .fatal m => .fatal m
        else .fatal "assert_no_overwrite: write of a different value to the same key"
      | .ok none =>
        match FilesystemArchiver.write_file fs col key value with
        | .ok fs2 => .ok fs2
        | .err e => .fatal e
        | .fatal m => .fatal m
    else
      match FilesystemArchiver.write_file fs col key value with
      | .ok fs2 => .ok fs2
      | .err e => .fatal e
      | .fatal m => .fatal m
  | .updateRefcount col key value =>
    match FilesystemArchiver.read_file fs col key with
    | .err e => .fatal e
    | .fatal m => .fatal m
    | .ok existing =>
      let merged := refcount_merge existing [value]
      if merged = [] then
        match FilesystemArchiver.delete_file fs col key with
        | .ok fs2 => .ok fs2
        | .err e => .fatal e
        | .fatal m => .fatal m
      else if debug = true ∧ (decode_value_with_rc merged).2 ≤ 0 then
        .fatal "Inserting value with non-positive refcount"
      else
        match FilesystemArchiver.write_file fs col key merged with
        | .ok fs2 => .ok fs2
        | .err e => .fatal e
        | .fatal m => .fatal m
  | .delete _ _ => .fatal "Delete operations unsupported"
  | .deleteAll _ => .fatal "Delete operations unsupported"
  | .deleteRange _ _ _ => .fatal "Delete operations unsupported"

/-- `<FilesystemArchiver as ArchivalStorage>::write`: apply each operation of
the transaction in order, stopping at the first error or abort. -/
def FilesystemArchiver.write (debug : Bool) (fs : FsState) : List DBOp → Outcome FsState
  | [] => .ok fs
  | op :: rest =>
    match FilesystemArchiver.applyOp debug fs op with
    | .ok fs2 => FilesystemArchiver.write debug fs2 rest
    | .err e => .err e
    | .fatal m => .fatal m

/-!
## `GoogleCloudArchiver` (`core/store/src/archive/gcloud.rs`)
-/

/-- A Google Cloud Storage bucket: object name ↦ object bytes. -/
def GCSBucket : Type := List (String × List Nat)

instance : DecidableEq GCSBucket := by
  unfold GCSBucket
  infer_instance

def gcsLookup : GCSBucket → String → Option (List Nat)
  | [], _ => none
  | (q, v) :: t, p => if q = p then some v else gcsLookup t p

def gcsRemove : GCSBucket → String → GCSBucket
  | [], _ => []
  | (q, v) :: t, p => if q = p then gcsRemove t p else (q, v) :: gcsRemove t p

def gcsCreateObject (b : GCSBucket) (loc : String) (v : List Nat) : GCSBucket :=
  (loc, v) :: gcsRemove b loc

/-- `<GoogleCloudArchiver as ArchivalStorage>::put`: the source ignores the
`path` argument and creates the object at the hard-coded object name
`"fake"` (`let location = "fake";`). -/
def GoogleCloudArchiver.put (b : GCSBucket) (p : String) (value : List Nat) :
    Outcome GCSBucket :=
  let location := "fake"
  let _ := p
  .ok (gcsCreateObject b location value)

/-- `<GoogleCloudArchiver as ArchivalStorage>::get` is `unimplemented!()`:
every call aborts. -/
def GoogleCloudArchiver.get (b : GCSBucket) (p : String) : Outcome (Option (List Nat)) :=
  let _ := b
  let _ := p
  .fatal "unimplemented"

/-- `<GoogleCloudArchiver as ArchivalStorage>::delete` is `unimplemented!()`. -/
def GoogleCloudArchiver.delete (b : GCSBucket) (p : String) : Outcome GCSBucket :=
  let _ := b
  let _ := p
  .fatal "unimplemented"

/-!
## `ArchivalStore` (`core/store/src/archive/mod.rs`)
-/

/-- `ArchivalStorage`: the target storage, either the ColdDB itself (the `id`
identifies the underlying database handle) or an external storage. -/
inductive ArchivalStorage where
  | coldDB (id : Nat)
  | external
  deriving DecidableEq, Repr

def ArchivalStorage.isColdDB : ArchivalStorage → Bool
  | .coldDB _ => true
  | .external => false

/-- The `ArchivalStore` struct: target storage, optional sync-ColdDB mirror
(by database handle id), and the column → path table built at open time.
All three fields are immutable after construction. -/
structure ArchivalStore where
  storage : ArchivalStorage
  sync_cold_db : Option Nat
  column_to_path : DBCol → Option (List String)

/-- Mutable state of the world the store acts on: the (single) ColdDB
key/value state and the external storage state. -/
structure ArchState where
  cold : KVStore
  ext : ExtStore
  deriving DecidableEq

/-- A write event, used to observe which database a call writes and in which
order: a transactional write to the ColdDB handle `id`, or a `put` of one
value to the external storage. -/
inductive WEvent where
  | coldWrite (id : Nat) (tx : List DBOp)
  | extPut (p : List String) (v : List Nat)
  deriving DecidableEq, Repr

/-- `ArchivalStore::new`: `debug_assert!` that no sync-ColdDB is attached when
the ColdDB itself is the archival storage (`debug` is
`cfg!(debug_assertions)`). -/
def ArchivalStore.new (debug : Bool) (storage : ArchivalStorage) (sync : Option Nat)
    (ctp : DBCol → Option (List String)) : Outcome ArchivalStore :=
  if debug = true ∧ storage.isColdDB = true ∧ sync.isSome = true then
    .fatal "Sync-ColdDB must be None if ColdDB is archival storage"
  else .ok { storage := storage, sync_cold_db := sync, column_to_path := ctp }

/-- `ArchivalStoreOpener::open`, per-column part: for each cold column and
`BlockMisc`, look up `cold_column_dirname` and abort when it has no entry;
other columns get no path. `container`, when present, is prepended. -/
def opener_column_to_path (container : Option (List String)) (col : DBCol) :
    Outcome (Option (List String)) :=
  if col.is_cold = true ∨ col = DBCol.BlockMisc then
    match cold_column_dirname col with
    | none => .fatal "Cold column has no entry for dirname"
    | some dirname => .ok (some (container.getD [] ++ [dirname]))
  else .ok none

/-- `ArchivalStore::get_path`: directory from the `column_to_path` table (a
missing entry aborts) joined with the base-58 filename of the key. -/
def ArchivalStore.get_path (s : ArchivalStore) (col : DBCol) (key : List Nat) :
    Outcome (List String) :=
  match s.column_to_path col with
  | none => .fatal "No entry for column"
  | some dirname => .ok (dirname ++ fileComponent (bs58_encode key))

/-- `get_cold_head`: read `BlockMisc/HEAD` from the ColdDB and
borsh-deserialize it (a malformed value is an `Err`). -/
def get_cold_head (cold : KVStore) : Outcome (Option Tip) :=
  match kvGet cold DBCol.BlockMisc HEAD_KEY with
  | none => .ok none
  | some bytes =>
    match Tip.ofBytes bytes with
    | some t => .ok (some t)
    | none => .err "Tip deserialization failed"

/-- `ArchivalStore::get_external_head`: read the head from the external
storage at the path of `(BlockMisc, HEAD_KEY)`. -/
def ArchivalStore.get_external_head (s : ArchivalStore) (ext : ExtStore) :
    Outcome (Option Tip) :=
  match s.get_path DBCol.BlockMisc HEAD_KEY with
  | .err e => .err e
  | .fatal m => .fatal m
  | .ok p =>
    match extGet ext p with
    | none => .ok none
    | some bytes =>
      match Tip.ofBytes bytes with
      | some t => .ok (some t)
      | none => .err "Tip deserialization failed"

/-- `ArchivalStore::write_to_external`: `Set` goes through unchanged;
`UpdateRefcount` is checked (raw value present, refcount exactly 1) and its
bytes stored verbatim; `Insert` and all `Delete*` variants are
`unreachable!`. Each surviving `(col, key, value)` is `put` at its path. -/
def ArchivalStore.write_to_external (s : ArchivalStore) (ext : ExtStore) :
    List DBOp → Outcome (ExtStore × List WEvent)
  | [] => .ok (ext, [])
  | op :: rest =>
    match op with
    | .set col key value =>
      match s.get_path col key with
      | .err e => .err e
      | .fatal m => .fatal m
      | .ok p =>
        match ArchivalStore.write_to_external s (extPut ext p value) rest with
        | .ok (ext2, evs) => .ok (ext2, .extPut p value :: evs)
        | .err e => .err e
        | .fatal m => .fatal m
    | .updateRefcount col key value =>
      let dec := decode_value_with_rc value
      if dec.1.isNone = true then .fatal "Failed to decode value with refcount"
      else if dec.2 ≠ 1 then .fatal "Refcount should be 1 for cold storage"
      else
        match s.get_path col key with
        | .err e => .err e
        | .fatal m => .fatal m
        | .ok p =>
          match ArchivalStore.write_to_external s (extPut ext p value) rest with
          | .ok (ext2, evs) => .ok (ext2, .extPut p value :: evs)
          | .err e => .err e
          | .fatal m => .fatal m
    | .insert _ _ _ => .fatal "Unexpected archival operation"
    | .delete _ _ => .fatal "Unexpected archival operation"
    | .deleteAll _ => .fatal "Unexpected archival operation"
    | .deleteRange _ _ _ => .fatal "Unexpected archival operation"

/-- `ArchivalStore::write`: ColdDB storage gets the transaction directly;
with an external storage the sync-ColdDB (when present) is written first,
then the external storage. -/
def ArchivalStore.write (s : ArchivalStore) (st : ArchState) (tx : List DBOp) :
    Outcome (ArchState × List WEvent) :=
  match s.storage with
  | .coldDB i => .ok ({ st with cold := cold_db_write st.cold tx }, [.coldWrite i tx])
  | .external =>
    match s.sync_cold_db with
    | some i =>
      let cold2 := cold_db_write st.cold tx
      match s.write_to_external st.ext tx with
      | .ok (ext2, evs) => .ok ({ cold := cold2, ext := ext2 }, .coldWrite i tx :: evs)
      | .err e => .err e
      | .fatal m => .fatal m
    | none =>
      match s.write_to_external st.ext tx with
      | .ok (ext2, evs) => .ok ({ st with ext := ext2 }, evs)
      | .err e => .err e
      | .fatal m => .fatal m

/-- `ArchivalStore::read`: point lookup through the active backend. -/
def ArchivalStore.read (s : ArchivalStore) (st : ArchState) (col : DBCol) (key : List Nat) :
    Outcome (Option (List Nat)) :=
  match s.storage with
  | .coldDB _ => .ok (kvGet st.cold col key)
  | .external =>
    match s.get_path col key with
    | .err e => .err e
    | .fatal m => .fatal m
    | .ok p => .ok (extGet st.ext p)

/-- `ArchivalStore::get_head`: ColdDB storage reads the cold head; an
external storage reads the external head and, when a sync-ColdDB mirror is
present, also the cold head, aborting on a mismatch
(`assert_eq!`), and returns the external head. -/
def ArchivalStore.get_head (s : ArchivalStore) (st : ArchState) : Outcome (Option Tip) :=
  match s.storage with
  | .coldDB _ => get_cold_head st.cold
  | .external =>
    match s.get_external_head st.ext with
    | .err e => .err e
    | .fatal m => .fatal m
    | .ok external_head =>
      match s.sync_cold_db with
      | none => .ok external_head
      | some _ =>
        match get_cold_head st.cold with
        | .err e => .err e
        | .fatal m => .fatal m
        | .ok cold_head =>
          if cold_head = external_head then .ok external_head
          else .fatal "Cold DB head should be in sync with external storage head"

/-- `set_head_tx`: one transaction setting the serialized tip under both the
live `HEAD` key and the persisted `COLD_HEAD` key of `BlockMisc`. -/
def set_head_tx (tip : Tip) : List DBOp :=
  [.set DBCol.BlockMisc HEAD_KEY tip.toBytes,
   .set DBCol.BlockMisc COLD_HEAD_KEY tip.toBytes]

/-- `ArchivalStore::set_head`: build `set_head_tx`, write it to the
sync-ColdDB first when one is present, then send it through
`ArchivalStore::write`. -/
def ArchivalStore.set_head (s : ArchivalStore) (st : ArchState) (tip : Tip) :
    Outcome (ArchState × List WEvent) :=
  let tx := set_head_tx tip
  match s.sync_cold_db with
  | some i =>
    let cold2 := cold_db_write st.cold tx
    match s.write { st with cold := cold2 } tx with
    | .ok (st2, evs) => .ok (st2, .coldWrite i tx :: evs)
    | .err e => .err e
    | .fatal m => .fatal m
  | none => s.write st tx

/-- `ArchivalStore::try_sync_cold_head`: no-op without a sync-ColdDB or
without an external storage; otherwise read both heads, abort if the cold
head is unset while the external head is set, abort on two unequal heads,
and push the cold head to the external storage when only the external head
is missing. -/
def ArchivalStore.try_sync_cold_head (s : ArchivalStore) (st : ArchState) :
    Outcome ArchState :=
  match s.sync_cold_db with
  | none => .ok st
  | some _ =>
    match s.storage with
    | .coldDB _ => .ok st
    | .external =>
      match get_cold_head st.cold with
      | .err e => .err e
      | .fatal m => .fatal m
      | .ok cold_head =>
        match s.get_external_head st.ext with
        | .err e => .err e
        | .fatal m => .fatal m
        | .ok external_head =>
          match cold_head with
          | none =>
            if external_head.isSome = true then
              .fatal "External head should be unset if cold head is unset"
            else .ok st
          | some ch =>
            match external_head with
            | some eh =>
              if ch = eh then .ok st
              else .fatal "Cold head and external storage head should be in sync"
            | none =>
              match s.write_to_external st.ext (set_head_tx ch) with
              | .ok (ext2, _) => .ok { st with ext := ext2 }
              | .err e => .err e
              | .fatal m => .fatal m

/-!
## Supporting lemmas about the store states
-/

theorem kvGet_kvRemove_other (s : KVStore) (col col2 : DBCol) (key key2 : List Nat)
    (h : (col, key) ≠ (col2, key2)) :
    kvGet (kvRemove s col2 key2) col key = kvGet s col key := by
  induction s with
  | nil => rfl
  | cons e t ih =>
    obtain ⟨ck, v⟩ := e
    by_cases hck : ck = (col2, key2)
    · have hne : ¬ ck = (col, key) := fun he => h (by rw [← he, hck])
      rw [kvRemove, if_pos hck, ih, kvGet, if_neg hne]
    · rw [kvRemove, if_neg hck, kvGet, kvGet]
      by_cases hck2 : ck = (col, key)
      · rw [if_pos hck2, if_pos hck2]
      · rw [if_neg hck2, if_neg hck2, ih]

theorem kvGet_kvPut_same (s : KVStore) (col : DBCol) (key v : List Nat) :
    kvGet (kvPut s col key v) col key = some v := by
  rw [kvPut, kvGet, if_pos rfl]

theorem kvGet_kvPut_other (s : KVStore) (col col2 : DBCol) (key key2 v : List Nat)
    (h : (col, key) ≠ (col2, key2)) :
    kvGet (kvPut s col2 key2 v) col key = kvGet s col key := by
  rw [kvPut, kvGet, if_neg (fun he => h he.symm), kvGet_kvRemove_other s col col2 key key2 h]

theorem extGet_extRemove_other (s : ExtStore) (p q : List String) (h : p ≠ q) :
    extGet (extRemove s q) p = extGet s p := by
  induction s with
  | nil => rfl
  | cons e t ih =>
    obtain ⟨r, v⟩ := e
    by_cases hr : r = q
    · have hne : ¬ r = p := fun he => h (by rw [← he, hr])
      rw [extRemove, if_pos hr, ih, extGet, if_neg hne]
    · rw [extRemove, if_neg hr, extGet, extGet]
      by_cases hr2 : r = p
      · rw [if_pos hr2, if_pos hr2]
      · rw [if_neg hr2, if_neg hr2, ih]

theorem extGet_extPut_same (s : ExtStore) (p : List String) (v : List Nat) :
    extGet (extPut s p v) p = some v := by
  rw [extPut, extGet, if_pos rfl]

theorem extGet_extPut_other (s : ExtStore) (p q : List String) (v : List Nat) (h : p ≠ q) :
    extGet (extPut s q v) p = extGet s p := by
  rw [extPut, extGet, if_neg (fun he => h he.symm), extGet_extRemove_other s p q h]

/-!
## Claim C1 — `cold_column_dirname` totality over cold columns
-/

/-- C1: the claim states that `cold_column_dirname` returns `Some` non-empty
directory name for every cold-eligible column and for `BlockMisc`. The code
inverts the emptiness test (`dirname.is_empty().then_some(dirname)` instead
of `(!dirname.is_empty()).then_some(dirname)`): it returns `none` for every
column the match maps to a non-empty name — exactly the cold columns and
`BlockMisc` — and `some ""` for every unmapped column, contradicting the
in-repo unit test `test_cold_column_dirname` and making
`ArchivalStoreOpener::open` abort with the "no entry for dirname" error on
the first cold column. This theorem evaluates the code at the failing
inputs. -/
theorem c1_cold_column_dirname_inverted :
    DBCol.Block.is_cold = true
    ∧ cold_column_dirname DBCol.Block = none
    ∧ opener_column_to_path none DBCol.Block = .fatal "Cold column has no entry for dirname"
    ∧ cold_column_dirname DBCol.BlockMisc = none
    ∧ cold_column_dirname DBCol.DbVersion = some "" := by
  decide

/-!
## Claim C3 — Google Cloud backend `put`/`get`
-/

/-- C3: the claim states that the remote-blob `put(path, value)` stores the
value at the object key given by the `path` argument and that `get` returns
previously stored bytes (or `Ok(None)` when absent). The code ignores `path`
and creates every object at the hard-coded key `"fake"`, and `get` is
`unimplemented!()` (an abort, never `Ok`). This theorem evaluates the code
at a concrete failing input: after `put` at the path `"BlockMisc/2r9NV9"`
the bucket holds the value only under `"fake"`, and `get` aborts. -/
theorem c3_gcloud_put_ignores_path :
    GoogleCloudArchiver.put [] "BlockMisc/2r9NV9" [1, 2, 3] = .ok [("fake", [1, 2, 3])]
    ∧ gcsLookup [("fake", [1, 2, 3])] "BlockMisc/2r9NV9" = none
    ∧ gcsLookup [("fake", [1, 2, 3])] "fake" = some [1, 2, 3]
    ∧ GoogleCloudArchiver.get [("fake", [1, 2, 3])] "BlockMisc/2r9NV9" = .fatal "unimplemented" := by
  decide

/-!
## Claim C9 — `read_file` error mapping
-/

/-- C9: `FilesystemArchiver::read_file` opens the target path and maps the
result: a missing file (`Errno::NOENT`) yields `Ok(None)`, an existing file
yields `Ok(Some(contents))` with the full contents, and any other OS-level
open error propagates as `Err`. -/
theorem c9_read_file_error_mapping (fs : FsState) (col : DBCol) (key : List Nat)
    (p : List String) (hp : FilesystemArchiver.get_path col key = some p) :
    (fsLookup fs p = none → FilesystemArchiver.read_file fs col key = .ok none)
    ∧ (∀ v, fsLookup fs p = some (.content v) →
        FilesystemArchiver.read_file fs col key = .ok (some v))
    ∧ (∀ e, fsLookup fs p = some (.osErr e) →
        FilesystemArchiver.read_file fs col key = .err e) := by
  refine ⟨fun h => ?_, fun v h => ?_, fun e h => ?_⟩ <;>
    simp only [FilesystemArchiver.read_file, hp, h]

/-- Witness for C9 at concrete inputs: the column `Block`, key `[1]`
(path `Block/2`), on a state holding one readable file, one broken file and
nothing else. -/
theorem c9_read_file_error_mapping_witness :
    (fsLookup [] ["Block", "2"] = none →
      FilesystemArchiver.read_file [] DBCol.Block [1] = .ok none)
    ∧ (∀ v, fsLookup [] ["Block", "2"] = some (.content v) →
        FilesystemArchiver.read_file [] DBCol.Block [1] = .ok (some v))
    ∧ (∀ e, fsLookup [] ["Block", "2"] = some (.osErr e) →
        FilesystemArchiver.read_file [] DBCol.Block [1] = .err e) :=
  c9_read_file_error_mapping [] DBCol.Block [1] ["Block", "2"] (by decide)

/-!
## Claim C8 — path mapper: shape, non-emptiness, injectivity
-/

theorem fileComponent_inj (s1 s2 : String) (h : fileComponent s1 = fileComponent s2) :
    s1 = s2 := by
  by_cases e1 : s1 = "" <;> by_cases e2 : s2 = "" <;>
    simp [fileComponent, e1, e2] at h <;> simp [e1, e2, h]

theorem DBCol.name_ne_empty (col : DBCol) : col.name ≠ "" := by
  cases col <;> decide

/-- C8: for every cold-eligible column the path mapper yields
`Some(directory_name(col) / base58(key))`, a non-empty path, and is
collision-free: two distinct keys of any length (empty included) with bytes
`< 256` map to distinct paths. The same holds for `ArchivalStore::get_path`
relative to the store's column→directory table. -/
theorem c8_get_path_nonempty_injective (col : DBCol) (hcold : col.is_cold = true)
    (k1 k2 : List Nat) (h1 : ∀ b ∈ k1, b < 256) (h2 : ∀ b ∈ k2, b < 256) :
    (FilesystemArchiver.get_path col k1 =
        some ([col.name] ++ fileComponent (bs58_encode k1))
      ∧ [col.name] ++ fileComponent (bs58_encode k1) ≠ []
      ∧ (FilesystemArchiver.get_path col k1 = FilesystemArchiver.get_path col k2 → k1 = k2))
    ∧ ∀ (s : ArchivalStore) (d : List String), s.column_to_path col = some d →
        (s.get_path col k1 = .ok (d ++ fileComponent (bs58_encode k1))
          ∧ (d ≠ [] → d ++ fileComponent (bs58_encode k1) ≠ [])
          ∧ (s.get_path col k1 = s.get_path col k2 → k1 = k2)) := by
  have hdir : FilesystemArchiver.col_to_dir col = some [col.name] := by
    rw [FilesystemArchiver.col_to_dir, if_pos hcold]
  have hfc : ∀ d : List String,
      d ++ fileComponent (bs58_encode k1) = d ++ fileComponent (bs58_encode k2) → k1 = k2 := by
    intro d hd
    exact bs58_encode_injective k1 k2 h1 h2
      (fileComponent_inj _ _ (List.append_cancel_left hd))
  constructor
  · refine ⟨?_, ?_, ?_⟩
    · rw [FilesystemArchiver.get_path, hdir, Option.map_some']
    · simp
    · intro h
      rw [FilesystemArchiver.get_path, hdir, Option.map_some',
        FilesystemArchiver.get_path, hdir, Option.map_some', Option.some.injEq] at h
      exact hfc [col.name] h
  · intro s d hd
    refine ⟨?_, ?_, ?_⟩
    · rw [ArchivalStore.get_path, hd]
    · intro hne
      cases d with
      | nil => exact absurd rfl hne
      | cons a t => simp
    · intro h
      rw [ArchivalStore.get_path, hd, ArchivalStore.get_path, hd, Outcome.ok.injEq] at h
      exact hfc d h

/-- Witness for C8: the `Receipts` column with the empty key and the key
`[0]` (both valid byte strings, encoding to `""` and `"1"`). -/
theorem c8_get_path_nonempty_injective_witness :
    ((FilesystemArchiver.get_path DBCol.Receipts [] =
        some (["Receipts"] ++ fileComponent (bs58_encode []))
      ∧ ["Receipts"] ++ fileComponent (bs58_encode []) ≠ []
      ∧ (FilesystemArchiver.get_path DBCol.Receipts [] =
          FilesystemArchiver.get_path DBCol.Receipts [0] → ([] : List Nat) = [0]))
    ∧ ∀ (s : ArchivalStore) (d : List String),
        s.column_to_path DBCol.Receipts = some d →
        (s.get_path DBCol.Receipts [] = .ok (d ++ fileComponent (bs58_encode []))
          ∧ (d ≠ [] → d ++ fileComponent (bs58_encode []) ≠ [])
          ∧ (s.get_path DBCol.Receipts [] = s.get_path DBCol.Receipts [0] →
              ([] : List Nat) = [0]))) := by
  have h := c8_get_path_nonempty_injective DBCol.Receipts (by decide) [] [0]
    (by decide) (by decide)
  have hname : DBCol.Receipts.name = "Receipts" := by decide
  rw [hname] at h
  exact h

/-!
## Claim C2 — refcount accumulation through the filesystem archiver
-/

theorem rcToBytes_length (n : Int) : (rcToBytes n).length = 8 := by
  rw [rcToBytes, leBytes_length]

theorem append_rc_ne_nil (v : List Nat) (n : Int) : v ++ rcToBytes n ≠ [] := by
  intro h
  have := congrArg List.length h
  rw [List.length_append, rcToBytes_length] at this
  simp at this

theorem decode_append_rc (v : List Nat) (n : Int) (hn : rcOfBytes (rcToBytes n) = n)
    (hpos : 0 < n) : decode_value_with_rc (v ++ rcToBytes n) = (some v, n) := by
  have hl : (v ++ rcToBytes n).length = v.length + 8 := by
    rw [List.length_append, rcToBytes_length]
  have htake : (v ++ rcToBytes n).take (v.length + 8 - 8) = v :=
    List.take_left' (by omega)
  have hdrop : (v ++ rcToBytes n).drop (v.length + 8 - 8) = rcToBytes n :=
    List.drop_left' (by omega)
  simp only [decode_value_with_rc, hl, htake, hdrop, hn]
  rw [if_neg (by omega), if_neg (by omega)]

theorem rc_round_one : rcOfBytes (rcToBytes 1) = 1 := by decide

theorem rc_round_two : rcOfBytes (rcToBytes 2) = 2 := by decide

theorem decode_rc_neg_one : decode_value_with_rc (rcToBytes (-1)) = (none, -1) := by decide

theorem merge_none_inc (v : List Nat) :
    refcount_merge none [v ++ rcToBytes 1] = v ++ rcToBytes 1 := by
  simp only [refcount_merge, List.foldl_cons, List.foldl_nil,
    decode_append_rc v 1 rc_round_one (by norm_num)]
  norm_num

theorem merge_inc_inc (v : List Nat) :
    refcount_merge (some (v ++ rcToBytes 1)) [rcToBytes 1] = v ++ rcToBytes 2 := by
  have hop : decode_value_with_rc (rcToBytes 1) = (some [], 1) := by
    have := decode_append_rc [] 1 rc_round_one (by norm_num)
    rwa [List.nil_append] at this
  simp only [refcount_merge, List.foldl_cons, List.foldl_nil, hop,
    decode_append_rc v 1 rc_round_one (by norm_num)]
  norm_num

theorem merge_two_dec (v : List Nat) :
    refcount_merge (some (v ++ rcToBytes 2)) [rcToBytes (-1)] = v ++ rcToBytes 1 := by
  simp only [refcount_merge, List.foldl_cons, List.foldl_nil, decode_rc_neg_one,
    decode_append_rc v 2 rc_round_two (by norm_num)]
  norm_num

theorem merge_one_dec (v : List Nat) :
    refcount_merge (some (v ++ rcToBytes 1)) [rcToBytes (-1)] = [] := by
  simp only [refcount_merge, List.foldl_cons, List.foldl_nil, decode_rc_neg_one,
    decode_append_rc v 1 rc_round_one (by norm_num)]
  norm_num

/-- Path of the key `[1, 2, 3]` in the `Receipts` column. -/
def c2path : List String := ["Receipts", "Ldp"]

/-- An `UpdateRefcount` operation on `(Receipts, [1,2,3])`. -/
def c2op (value : List Nat) : DBOp := DBOp.updateRefcount DBCol.Receipts [1, 2, 3] value

theorem c2_path_eq : FilesystemArchiver.get_path DBCol.Receipts [1, 2, 3] = some c2path := by
  decide

theorem c2_read_content (w : List Nat) :
    FilesystemArchiver.read_file [(c2path, FEntry.content w)] DBCol.Receipts [1, 2, 3] =
      .ok (some w) := by
  simp [FilesystemArchiver.read_file, c2_path_eq, fsLookup]

theorem c2_apply_op1 (v : List Nat) :
    FilesystemArchiver.applyOp true [] (c2op (v ++ rcToBytes 1)) =
      .ok [(c2path, FEntry.content (v ++ rcToBytes 1))] := by
  have hread : FilesystemArchiver.read_file [] DBCol.Receipts [1, 2, 3] = .ok none := by
    decide
  simp only [c2op, FilesystemArchiver.applyOp, hread, merge_none_inc]
  rw [if_neg (append_rc_ne_nil v 1), decode_append_rc v 1 rc_round_one (by norm_num),
    if_neg (by norm_num)]
  simp only [FilesystemArchiver.write_file, c2_path_eq, fsStore, fsRemove]

theorem c2_apply_op2 (v : List Nat) :
    FilesystemArchiver.applyOp true [(c2path, FEntry.content (v ++ rcToBytes 1))]
        (c2op (rcToBytes 1)) =
      .ok [(c2path, FEntry.content (v ++ rcToBytes 2))] := by
  simp only [c2op, FilesystemArchiver.applyOp, c2_read_content, merge_inc_inc]
  rw [if_neg (append_rc_ne_nil v 2), decode_append_rc v 2 rc_round_two (by norm_num),
    if_neg (by norm_num)]
  simp [FilesystemArchiver.write_file, c2_path_eq, fsStore, fsRemove]

theorem c2_apply_op3 (v : List Nat) :
    FilesystemArchiver.applyOp true [(c2path, FEntry.content (v ++ rcToBytes 2))]
        (c2op (rcToBytes (-1))) =
      .ok [(c2path, FEntry.content (v ++ rcToBytes 1))] := by
  simp only [c2op, FilesystemArchiver.applyOp, c2_read_content, merge_two_dec]
  rw [if_neg (append_rc_ne_nil v 1), decode_append_rc v 1 rc_round_one (by norm_num),
    if_neg (by norm_num)]
  simp [FilesystemArchiver.write_file, c2_path_eq, fsStore, fsRemove]

theorem c2_apply_op4 (v : List Nat) :
    FilesystemArchiver.applyOp true [(c2path, FEntry.content (v ++ rcToBytes 1))]
        (c2op (rcToBytes (-1))) = .ok [] := by
  simp only [c2op, FilesystemArchiver.applyOp, c2_read_content, merge_one_dec]
  simp [FilesystemArchiver.delete_file, c2_path_eq, fsLookup, fsRemove]

theorem c2_apply_op5 :
    FilesystemArchiver.applyOp true [] (c2op (rcToBytes (-1))) = .fatal "NOENT" := by
  decide

theorem c2_ne_raw (v : List Nat) : v ++ rcToBytes 2 ≠ v := by
  intro h
  have := congrArg List.length h
  rw [List.length_append, rcToBytes_length] at this
  omega

/-- C2, counterexample: at `v = [7]`, after `(raw=v, delta=+1)` then
`(delta=+1)` the stored value is `v ++ le64(2)` and `read_file` returns it in
full — not `Some(v)` as the claim states — and the third `(delta=-1)`
operand does not leave a removed entry behind: it makes the archiver abort
(it `unwrap`s the `Err(NOENT)` of deleting the already-removed file). -/
theorem c2_refcount_scenario_counterexample :
    (FilesystemArchiver.write true [] [c2op ([7] ++ rcToBytes 1), c2op (rcToBytes 1)] =
        .ok [(c2path, FEntry.content [7, 2, 0, 0, 0, 0, 0, 0, 0])]
      ∧ FilesystemArchiver.read_file [(c2path, FEntry.content [7, 2, 0, 0, 0, 0, 0, 0, 0])]
          DBCol.Receipts [1, 2, 3] = .ok (some [7, 2, 0, 0, 0, 0, 0, 0, 0])
      ∧ Outcome.ok (some [7, 2, 0, 0, 0, 0, 0, 0, 0]) ≠ Outcome.ok (some [7]))
    ∧ FilesystemArchiver.write true []
        [c2op ([7] ++ rcToBytes 1), c2op (rcToBytes 1), c2op (rcToBytes (-1)),
         c2op (rcToBytes (-1)), c2op (rcToBytes (-1))] = .fatal "NOENT" := by
  decide

/-- C2, amended: starting from absent, `UpdateRefcount` with `(raw=v, delta=+1)`
then `(delta=+1)` leaves a stored value whose decoded refcount is 2 and whose
bytes are the refcounted encoding `v ++ le64(2)` (which is what `read`
returns — the raw value `v` is its decoded payload, not the read result);
the next two `(delta=-1)` operands bring the count to zero, remove the entry,
and `read` then returns `None`; a further `(delta=-1)` operand on the
now-absent entry is a fatal error (the archiver `unwrap`s the failed delete)
rather than a no-op. -/
theorem c2_refcount_scenario_amended (v : List Nat) :
    (FilesystemArchiver.write true [] [c2op (v ++ rcToBytes 1), c2op (rcToBytes 1)] =
        .ok [(c2path, FEntry.content (v ++ rcToBytes 2))])
    ∧ (decode_value_with_rc (v ++ rcToBytes 2)).2 = 2
    ∧ FilesystemArchiver.read_file [(c2path, FEntry.content (v ++ rcToBytes 2))]
        DBCol.Receipts [1, 2, 3] = .ok (some (v ++ rcToBytes 2))
    ∧ v ++ rcToBytes 2 ≠ v
    ∧ (FilesystemArchiver.write true []
        [c2op (v ++ rcToBytes 1), c2op (rcToBytes 1), c2op (rcToBytes (-1)),
         c2op (rcToBytes (-1))] = .ok [])
    ∧ FilesystemArchiver.read_file [] DBCol.Receipts [1, 2, 3] = .ok none
    ∧ FilesystemArchiver.write true []
        [c2op (v ++ rcToBytes 1), c2op (rcToBytes 1), c2op (rcToBytes (-1)),
         c2op (rcToBytes (-1)), c2op (rcToBytes (-1))] = .fatal "NOENT" := by
  refine ⟨?_, ?_, c2_read_content _, c2_ne_raw v, ?_, by decide, ?_⟩
  · simp only [FilesystemArchiver.write, c2_apply_op1, c2_apply_op2]
  · rw [decode_append_rc v 2 rc_round_two (by norm_num)]
  · simp only [FilesystemArchiver.write, c2_apply_op1, c2_apply_op2, c2_apply_op3,
      c2_apply_op4]
  · simp only [FilesystemArchiver.write, c2_apply_op1, c2_apply_op2, c2_apply_op3,
      c2_apply_op4, c2_apply_op5]

/-!
## Claim C7 — `Insert` never silently overwrites a different value
-/

/-- C7: in debug builds the `Insert` arm of the filesystem archiver reads any
existing file first and asserts byte-for-byte equality with the new value
before writing: a differing existing value aborts, an equal or absent one is
(re-)written, and every successful insert implies the old value (if any)
equalled the new one. In the `ArchivalStore` external write path an `Insert`
is rejected outright (`unreachable!`), so it can never overwrite anything
there either. -/
theorem c7_insert_never_silently_overwrites (fs : FsState) (col : DBCol)
    (key value : List Nat) (p : List String)
    (hp : FilesystemArchiver.get_path col key = some p) :
    (∀ old, fsLookup fs p = some (.content old) → value ≠ old →
      FilesystemArchiver.applyOp true fs (.insert col key value) =
        .fatal "assert_no_overwrite: write of a different value to the same key")
    ∧ (∀ old, fsLookup fs p = some (.content old) → value = old →
      FilesystemArchiver.applyOp true fs (.insert col key value) = .ok (fsStore fs p value))
    ∧ (fsLookup fs p = none →
      FilesystemArchiver.applyOp true fs (.insert col key value) = .ok (fsStore fs p value))
    ∧ (∀ fs2, FilesystemArchiver.applyOp true fs (.insert col key value) = .ok fs2 →
      ∀ old, fsLookup fs p = some (.content old) → value = old)
    ∧ (∀ (s : ArchivalStore) (ext : ExtStore) (rest : List DBOp),
      s.write_to_external ext (.insert col key value :: rest) =
        .fatal "Unexpected archival operation") := by
  refine ⟨?_, ?_, ?_, ?_, fun s ext rest => rfl⟩
  · intro old h hne
    have hread : FilesystemArchiver.read_file fs col key = .ok (some old) := by
      simp only [FilesystemArchiver.read_file, hp, h]
    simp only [FilesystemArchiver.applyOp, hread, if_pos rfl, if_neg hne, if_true]
  · intro old h he
    have hread : FilesystemArchiver.read_file fs col key = .ok (some old) := by
      simp only [FilesystemArchiver.read_file, hp, h]
    simp only [FilesystemArchiver.applyOp, hread, if_pos rfl, if_pos he,
      FilesystemArchiver.write_file, hp, if_true]
  · intro h
    have hread : FilesystemArchiver.read_file fs col key = .ok none := by
      simp only [FilesystemArchiver.read_file, hp, h]
    simp only [FilesystemArchiver.applyOp, hread, if_pos rfl,
      FilesystemArchiver.write_file, hp, if_true]
  · intro fs2 hok old h
    by_cases he : value = old
    · exact he
    · have hread : FilesystemArchiver.read_file fs col key = .ok (some old) := by
        simp only [FilesystemArchiver.read_file, hp, h]
      rw [show FilesystemArchiver.applyOp true fs (.insert col key value) =
          .fatal "assert_no_overwrite: write of a different value to the same key" by
        simp only [FilesystemArchiver.applyOp, hread, if_pos rfl, if_neg he, if_true]] at hok
      exact absurd hok (by simp)

/-- Witness for C7 at concrete inputs: column `Block`, key `[1]`
(path `Block/2`), value `[9]`. -/
theorem c7_insert_never_silently_overwrites_witness :
    (∀ old, fsLookup [(["Block", "2"], FEntry.content [5])] ["Block", "2"] =
        some (.content old) → [9] ≠ old →
      FilesystemArchiver.applyOp true [(["Block", "2"], FEntry.content [5])]
          (.insert DBCol.Block [1] [9]) =
        .fatal "assert_no_overwrite: write of a different value to the same key")
    ∧ (∀ old, fsLookup [(["Block", "2"], FEntry.content [5])] ["Block", "2"] =
        some (.content old) → [9] = old →
      FilesystemArchiver.applyOp true [(["Block", "2"], FEntry.content [5])]
          (.insert DBCol.Block [1] [9]) =
        .ok (fsStore [(["Block", "2"], FEntry.content [5])] ["Block", "2"] [9]))
    ∧ (fsLookup [(["Block", "2"], FEntry.content [5])] ["Block", "2"] = none →
      FilesystemArchiver.applyOp true [(["Block", "2"], FEntry.content [5])]
          (.insert DBCol.Block [1] [9]) =
        .ok (fsStore [(["Block", "2"], FEntry.content [5])] ["Block", "2"] [9]))
    ∧ (∀ fs2, FilesystemArchiver.applyOp true [(["Block", "2"], FEntry.content [5])]
          (.insert DBCol.Block [1] [9]) = .ok fs2 →
      ∀ old, fsLookup [(["Block", "2"], FEntry.content [5])] ["Block", "2"] =
          some (.content old) → [9] = old)
    ∧ (∀ (s : ArchivalStore) (ext : ExtStore) (rest : List DBOp),
      s.write_to_external ext (.insert DBCol.Block [1] [9] :: rest) =
        .fatal "Unexpected archival operation") :=
  c7_insert_never_silently_overwrites [(["Block", "2"], FEntry.content [5])]
    DBCol.Block [1] [9] ["Block", "2"] (by decide)

/-!
## Claim C5 — `get_head` reads and compares both heads
-/

/-- C5: `get_head` with a ColdDB backend reads the cold head; with an external
backend paired with a sync-ColdDB mirror it reads both heads, aborts
(`assert_eq!`) on a mismatch — it does not return an `Err` — and otherwise
returns the external head value. -/
theorem c5_get_head_mirror_consistency (s : ArchivalStore) (st : ArchState) (i : Nat)
    (ch eh : Option Tip)
    (hstor : s.storage = .external) (hsync : s.sync_cold_db = some i)
    (hext : s.get_external_head st.ext = .ok eh)
    (hcold : get_cold_head st.cold = .ok ch) :
    (∀ (s2 : ArchivalStore) (j : Nat), s2.storage = .coldDB j →
      s2.get_head st = get_cold_head st.cold)
    ∧ (ch ≠ eh → s.get_head st =
        .fatal "Cold DB head should be in sync with external storage head")
    ∧ (ch = eh → s.get_head st = .ok eh) := by
  refine ⟨?_, ?_, ?_⟩
  · intro s2 j h2
    simp only [ArchivalStore.get_head, h2]
  · intro hne
    simp only [ArchivalStore.get_head, hstor, hext, hsync, hcold, if_neg hne]
  · intro he
    simp only [ArchivalStore.get_head, hstor, hext, hsync, hcold, if_pos he]

/-- Witness for C5: a store whose mirror holds head `⟨1, 2, 3⟩` while the
external storage holds none (the mismatch case is exercised by the theorem's
second conjunct, the equal case by instantiating both heads to `none` in the
state with an empty mirror). -/
theorem c5_get_head_mirror_consistency_witness :
    (∀ (s2 : ArchivalStore) (j : Nat), s2.storage = .coldDB j →
      s2.get_head ⟨[((DBCol.BlockMisc, HEAD_KEY), Tip.toBytes ⟨1, 2, 3⟩)], []⟩ =
        get_cold_head [((DBCol.BlockMisc, HEAD_KEY), Tip.toBytes ⟨1, 2, 3⟩)])
    ∧ (some (⟨1, 2, 3⟩ : Tip) ≠ none →
      ArchivalStore.get_head
        ⟨.external, some 0, fun _ => some ["BlockMisc"]⟩
        ⟨[((DBCol.BlockMisc, HEAD_KEY), Tip.toBytes ⟨1, 2, 3⟩)], []⟩ =
        .fatal "Cold DB head should be in sync with external storage head")
    ∧ (some (⟨1, 2, 3⟩ : Tip) = none →
      ArchivalStore.get_head
        ⟨.external, some 0, fun _ => some ["BlockMisc"]⟩
        ⟨[((DBCol.BlockMisc, HEAD_KEY), Tip.toBytes ⟨1, 2, 3⟩)], []⟩ = .ok none) :=
  c5_get_head_mirror_consistency
    ⟨.external, some 0, fun _ => some ["BlockMisc"]⟩
    ⟨[((DBCol.BlockMisc, HEAD_KEY), Tip.toBytes ⟨1, 2, 3⟩)], []⟩ 0
    (some ⟨1, 2, 3⟩) none rfl rfl (by decide) (by decide)

/-!
## Claims C4 and C6 — head synchronization and `set_head`
-/

theorem head_paths_ne (d : List String) :
    d ++ fileComponent (bs58_encode HEAD_KEY) ≠
      d ++ fileComponent (bs58_encode COLD_HEAD_KEY) := by
  intro h
  have h2 := List.append_cancel_left h
  rw [show fileComponent (bs58_encode HEAD_KEY) = ["2r9NV9"] from by decide,
    show fileComponent (bs58_encode COLD_HEAD_KEY) = ["rhAB8P8MkpZH"] from by decide] at h2
  exact absurd h2 (by decide)

theorem write_to_external_set_head (s : ArchivalStore) (ext : ExtStore) (H : Tip)
    (d : List String) (hctp : s.column_to_path DBCol.BlockMisc = some d) :
    s.write_to_external ext (set_head_tx H) =
      .ok (extPut (extPut ext (d ++ fileComponent (bs58_encode HEAD_KEY)) H.toBytes)
            (d ++ fileComponent (bs58_encode COLD_HEAD_KEY)) H.toBytes,
        [.extPut (d ++ fileComponent (bs58_encode HEAD_KEY)) H.toBytes,
         .extPut (d ++ fileComponent (bs58_encode COLD_HEAD_KEY)) H.toBytes]) := by
  have hp1 : s.get_path DBCol.BlockMisc HEAD_KEY =
      .ok (d ++ fileComponent (bs58_encode HEAD_KEY)) := by
    simp only [ArchivalStore.get_path, hctp]
  have hp2 : s.get_path DBCol.BlockMisc COLD_HEAD_KEY =
      .ok (d ++ fileComponent (bs58_encode COLD_HEAD_KEY)) := by
    simp only [ArchivalStore.get_path, hctp]
  simp only [set_head_tx, ArchivalStore.write_to_external, hp1, hp2]

theorem get_external_head_after_push (s : ArchivalStore) (ext : ExtStore) (H : Tip)
    (d : List String) (hctp : s.column_to_path DBCol.BlockMisc = some d) (hH : H.Valid) :
    s.get_external_head
        (extPut (extPut ext (d ++ fileComponent (bs58_encode HEAD_KEY)) H.toBytes)
          (d ++ fileComponent (bs58_encode COLD_HEAD_KEY)) H.toBytes) =
      .ok (some H) := by
  have hp1 : s.get_path DBCol.BlockMisc HEAD_KEY =
      .ok (d ++ fileComponent (bs58_encode HEAD_KEY)) := by
    simp only [ArchivalStore.get_path, hctp]
  have hget : extGet
      (extPut (extPut ext (d ++ fileComponent (bs58_encode HEAD_KEY)) H.toBytes)
        (d ++ fileComponent (bs58_encode COLD_HEAD_KEY)) H.toBytes)
      (d ++ fileComponent (bs58_encode HEAD_KEY)) = some H.toBytes := by
    rw [extGet_extPut_other _ _ _ _ (head_paths_ne d), extGet_extPut_same]
  simp only [ArchivalStore.get_external_head, hp1, hget, Tip.ofBytes_toBytes H hH]

/-- C4: with a sync-ColdDB mirror paired with an external backend,
`try_sync_cold_head` (a) aborts when the mirror has no head but the external
storage has one, (b) is a no-op when neither has a head, (c) pushes the
mirror's head `H` to the external backend when only the latter lacks one so
that both end with head `H`, (d) is a no-op when both already hold the same
head, and (e) aborts when both hold heads that differ. -/
theorem c4_try_sync_head (s : ArchivalStore) (st : ArchState) (i : Nat) (d : List String)
    (hstor : s.storage = .external) (hsync : s.sync_cold_db = some i)
    (hctp : s.column_to_path DBCol.BlockMisc = some d) :
    (∀ eh, get_cold_head st.cold = .ok none →
      s.get_external_head st.ext = .ok (some eh) →
      s.try_sync_cold_head st = .fatal "External head should be unset if cold head is unset")
    ∧ (get_cold_head st.cold = .ok none → s.get_external_head st.ext = .ok none →
      s.try_sync_cold_head st = .ok st)
    ∧ (∀ H, H.Valid → get_cold_head st.cold = .ok (some H) →
      s.get_external_head st.ext = .ok none →
      ∃ st2, s.try_sync_cold_head st = .ok st2
        ∧ st2.cold = st.cold
        ∧ get_cold_head st2.cold = .ok (some H)
        ∧ s.get_external_head st2.ext = .ok (some H))
    ∧ (∀ H, get_cold_head st.cold = .ok (some H) →
      s.get_external_head st.ext = .ok (some H) →
      s.try_sync_cold_head st = .ok st)
    ∧ (∀ H H2, H ≠ H2 → get_cold_head st.cold = .ok (some H) →
      s.get_external_head st.ext = .ok (some H2) →
      s.try_sync_cold_head st =
        .fatal "Cold head and external storage head should be in sync") := by
  refine ⟨?_, ?_, ?_, ?_, ?_⟩
  · intro eh hcold hext
    simp only [ArchivalStore.try_sync_cold_head, hsync, hstor, hcold, hext, Option.isSome_some,
      if_pos rfl, if_true]
  · intro hcold hext
    simp only [ArchivalStore.try_sync_cold_head, hsync, hstor, hcold, hext, Option.isSome_none]
    rw [if_neg (by simp)]
  · intro H hH hcold hext
    refine ⟨ArchState.mk st.cold (extPut (extPut st.ext (d ++ fileComponent (bs58_encode HEAD_KEY)) H.toBytes) (d ++ fileComponent (bs58_encode COLD_HEAD_KEY)) H.toBytes), ?_, rfl, hcold, ?_⟩
    · simp only [ArchivalStore.try_sync_cold_head, hsync, hstor, hcold, hext,
        write_to_external_set_head s st.ext H d hctp]
    · exact get_external_head_after_push s st.ext H d hctp hH
  · intro H hcold hext
    simp only [ArchivalStore.try_sync_cold_head, hsync, hstor, hcold, hext, if_pos rfl, if_true]
  · intro H H2 hne hcold hext
    simp only [ArchivalStore.try_sync_cold_head, hsync, hstor, hcold, hext, if_neg hne]

/-- Witness for C4: a store over the `BlockMisc` directory whose mirror holds
head `⟨1, 2, 3⟩` while the external storage is empty; `try_sync_cold_head`
pushes the head and both sides end with it. -/
theorem c4_try_sync_head_witness :
    ∃ st2, ArchivalStore.try_sync_cold_head
        ⟨.external, some 0, fun _ => some ["BlockMisc"]⟩
        ⟨[((DBCol.BlockMisc, HEAD_KEY), Tip.toBytes ⟨1, 2, 3⟩)], []⟩ = .ok st2
      ∧ st2.cold = [((DBCol.BlockMisc, HEAD_KEY), Tip.toBytes ⟨1, 2, 3⟩)]
      ∧ get_cold_head st2.cold = .ok (some ⟨1, 2, 3⟩)
      ∧ ArchivalStore.get_external_head
          ⟨.external, some 0, fun _ => some ["BlockMisc"]⟩ st2.ext = .ok (some ⟨1, 2, 3⟩) :=
  (c4_try_sync_head ⟨.external, some 0, fun _ => some ["BlockMisc"]⟩
    ⟨[((DBCol.BlockMisc, HEAD_KEY), Tip.toBytes ⟨1, 2, 3⟩)], []⟩ 0 ["BlockMisc"]
    rfl rfl rfl).2.2.1 ⟨1, 2, 3⟩ (by decide) (by decide) (by decide)

theorem cold_write_head_tx (c : KVStore) (tip : Tip) :
    cold_db_write c (set_head_tx tip) =
      kvPut (kvPut c DBCol.BlockMisc HEAD_KEY tip.toBytes)
        DBCol.BlockMisc COLD_HEAD_KEY tip.toBytes := rfl

theorem kvGet_head_tx_head (c : KVStore) (tip : Tip) :
    kvGet (cold_db_write c (set_head_tx tip)) DBCol.BlockMisc HEAD_KEY = some tip.toBytes := by
  rw [cold_write_head_tx, kvGet_kvPut_other _ _ _ _ _ _ (by decide), kvGet_kvPut_same]

theorem kvGet_head_tx_cold_head (c : KVStore) (tip : Tip) :
    kvGet (cold_db_write c (set_head_tx tip)) DBCol.BlockMisc COLD_HEAD_KEY =
      some tip.toBytes := by
  rw [cold_write_head_tx, kvGet_kvPut_same]

/-- C6: with a sync-ColdDB mirror paired with an external backend, `set_head`
issues one transaction that sets the identical serialized tip under both the
live `HEAD` key and the persisted `COLD_HEAD` key; the mirror's copies are
written first (the two `coldWrite` events precede the two external puts —
the mirror is in fact written twice, once by `set_head` and once more inside
`write`), and afterwards mirror and external storage both hold the same
bytes under both aliases. -/
theorem c6_set_head_dual_write (s : ArchivalStore) (st : ArchState) (tip : Tip)
    (i : Nat) (d : List String)
    (hstor : s.storage = .external) (hsync : s.sync_cold_db = some i)
    (hctp : s.column_to_path DBCol.BlockMisc = some d) :
    ∃ st2,
      s.set_head st tip = .ok (st2,
        [.coldWrite i (set_head_tx tip), .coldWrite i (set_head_tx tip),
         .extPut (d ++ fileComponent (bs58_encode HEAD_KEY)) tip.toBytes,
         .extPut (d ++ fileComponent (bs58_encode COLD_HEAD_KEY)) tip.toBytes])
      ∧ set_head_tx tip = [.set DBCol.BlockMisc HEAD_KEY tip.toBytes,
          .set DBCol.BlockMisc COLD_HEAD_KEY tip.toBytes]
      ∧ kvGet st2.cold DBCol.BlockMisc HEAD_KEY = some tip.toBytes
      ∧ kvGet st2.cold DBCol.BlockMisc COLD_HEAD_KEY = some tip.toBytes
      ∧ extGet st2.ext (d ++ fileComponent (bs58_encode HEAD_KEY)) = some tip.toBytes
      ∧ extGet st2.ext (d ++ fileComponent (bs58_encode COLD_HEAD_KEY)) = some tip.toBytes := by
  refine ⟨ArchState.mk
    (cold_db_write (cold_db_write st.cold (set_head_tx tip)) (set_head_tx tip))
    (extPut (extPut st.ext (d ++ fileComponent (bs58_encode HEAD_KEY)) tip.toBytes)
      (d ++ fileComponent (bs58_encode COLD_HEAD_KEY)) tip.toBytes),
    ?_, rfl, kvGet_head_tx_head _ tip, kvGet_head_tx_cold_head _ tip, ?_, ?_⟩
  · simp only [ArchivalStore.set_head, hsync, ArchivalStore.write, hstor,
      write_to_external_set_head s st.ext tip d hctp]
  · rw [extGet_extPut_other _ _ _ _ (head_paths_ne d), extGet_extPut_same]
  · rw [extGet_extPut_same]

/-- Witness for C6: setting head `⟨1, 2, 3⟩` on an empty mirror and empty
external storage over the `BlockMisc` directory. -/
theorem c6_set_head_dual_write_witness :
    ∃ st2,
      ArchivalStore.set_head ⟨.external, some 0, fun _ => some ["BlockMisc"]⟩
          ⟨[], []⟩ ⟨1, 2, 3⟩ = .ok (st2,
        [.coldWrite 0 (set_head_tx ⟨1, 2, 3⟩), .coldWrite 0 (set_head_tx ⟨1, 2, 3⟩),
         .extPut (["BlockMisc"] ++ fileComponent (bs58_encode HEAD_KEY))
           (Tip.toBytes ⟨1, 2, 3⟩),
         .extPut (["BlockMisc"] ++ fileComponent (bs58_encode COLD_HEAD_KEY))
           (Tip.toBytes ⟨1, 2, 3⟩)])
      ∧ set_head_tx ⟨1, 2, 3⟩ = [.set DBCol.BlockMisc HEAD_KEY (Tip.toBytes ⟨1, 2, 3⟩),
          .set DBCol.BlockMisc COLD_HEAD_KEY (Tip.toBytes ⟨1, 2, 3⟩)]
      ∧ kvGet st2.cold DBCol.BlockMisc HEAD_KEY = some (Tip.toBytes ⟨1, 2, 3⟩)
      ∧ kvGet st2.cold DBCol.BlockMisc COLD_HEAD_KEY = some (Tip.toBytes ⟨1, 2, 3⟩)
      ∧ extGet st2.ext (["BlockMisc"] ++ fileComponent (bs58_encode HEAD_KEY)) =
          some (Tip.toBytes ⟨1, 2, 3⟩)
      ∧ extGet st2.ext (["BlockMisc"] ++ fileComponent (bs58_encode COLD_HEAD_KEY)) =
          some (Tip.toBytes ⟨1, 2, 3⟩) :=
  c6_set_head_dual_write ⟨.external, some 0, fun _ => some ["BlockMisc"]⟩
    ⟨[], []⟩ ⟨1, 2, 3⟩ 0 ["BlockMisc"] rfl rfl rfl

/-!
## Claim C10 — no double-write of the same ColdDB
-/

/-- Does the event write the ColdDB handle `i`? -/
def WEvent.isColdWriteTo (i : Nat) : WEvent → Bool
  | .coldWrite j _ => j = i
  | .extPut _ _ => false

theorem write_to_external_nil (s : ArchivalStore) (ext : ExtStore) :
    s.write_to_external ext [] = .ok (ext, []) := rfl

theorem write_to_external_cons_set (s : ArchivalStore) (ext : ExtStore) (col : DBCol)
    (key value : List Nat) (rest : List DBOp) :
    s.write_to_external ext (.set col key value :: rest) =
      (match s.get_path col key with
      | .err e => .err e
      | .fatal m => .fatal m
      | .ok p =>
        match s.write_to_external (extPut ext p value) rest with
        | .ok (ext2, evs) => .ok (ext2, .extPut p value :: evs)
        | .err e => .err e
        | .fatal m => .fatal m) := rfl

theorem write_to_external_cons_urc (s : ArchivalStore) (ext : ExtStore) (col : DBCol)
    (key value : List Nat) (rest : List DBOp) :
    s.write_to_external ext (.updateRefcount col key value :: rest) =
      (if (decode_value_with_rc value).1.isNone = true then
        .fatal "Failed to decode value with refcount"
      else if (decode_value_with_rc value).2 ≠ 1 then
        .fatal "Refcount should be 1 for cold storage"
      else
        match s.get_path col key with
        | .err e => .err e
        | .fatal m => .fatal m
        | .ok p =>
          match s.write_to_external (extPut ext p value) rest with
          | .ok (ext2, evs) => .ok (ext2, .extPut p value :: evs)
          | .err e => .err e
          | .fatal m => .fatal m) := rfl

theorem write_to_external_cons_insert (s : ArchivalStore) (ext : ExtStore) (col : DBCol)
    (key value : List Nat) (rest : List DBOp) :
    s.write_to_external ext (.insert col key value :: rest) =
      .fatal "Unexpected archival operation" := rfl

theorem write_to_external_cons_delete (s : ArchivalStore) (ext : ExtStore) (col : DBCol)
    (key : List Nat) (rest : List DBOp) :
    s.write_to_external ext (.delete col key :: rest) =
      .fatal "Unexpected archival operation" := rfl

theorem write_to_external_cons_deleteAll (s : ArchivalStore) (ext : ExtStore) (col : DBCol)
    (rest : List DBOp) :
    s.write_to_external ext (.deleteAll col :: rest) =
      .fatal "Unexpected archival operation" := rfl

theorem write_to_external_cons_deleteRange (s : ArchivalStore) (ext : ExtStore) (col : DBCol)
    (k1 k2 : List Nat) (rest : List DBOp) :
    s.write_to_external ext (.deleteRange col k1 k2 :: rest) =
      .fatal "Unexpected archival operation" := rfl

theorem write_to_external_events_are_puts (s : ArchivalStore) :
    ∀ (tx : List DBOp) (ext ext2 : ExtStore) (evs : List WEvent),
      s.write_to_external ext tx = .ok (ext2, evs) →
      ∀ ev ∈ evs, ∃ p v, ev = .extPut p v := by
  intro tx
  induction tx with
  | nil =>
    intro ext ext2 evs h ev hev
    rw [write_to_external_nil, Outcome.ok.injEq, Prod.mk.injEq] at h
    rw [← h.2] at hev
    exact absurd hev (List.not_mem_nil ev)
  | cons op rest ih =>
    intro ext ext2 evs h ev hev
    match op with
    | .set col key value =>
      rw [write_to_external_cons_set] at h
      rcases hgp : s.get_path col key with p | e | m
      · simp only [hgp] at h
        rcases hrec : s.write_to_external (extPut ext p value) rest with ⟨e2, evs2⟩ | e | m
        · simp only [hrec, Outcome.ok.injEq, Prod.mk.injEq] at h
          rw [← h.2] at hev
          rcases List.mem_cons.mp hev with hev1 | hev2
          · exact ⟨p, value, hev1⟩
          · exact ih (extPut ext p value) e2 evs2 hrec ev hev2
        · simp only [hrec] at h
          exact absurd h (by simp)
        · simp only [hrec] at h
          exact absurd h (by simp)
      · simp only [hgp] at h
        exact absurd h (by simp)
      · simp only [hgp] at h
        exact absurd h (by simp)
    | .updateRefcount col key value =>
      rw [write_to_external_cons_urc] at h
      by_cases h1 : (decode_value_with_rc value).1.isNone = true
      · rw [if_pos h1] at h
        exact absurd h (by simp)
      · rw [if_neg h1] at h
        by_cases h2 : (decode_value_with_rc value).2 ≠ 1
        · rw [if_pos h2] at h
          exact absurd h (by simp)
        · rw [if_neg h2] at h
          rcases hgp : s.get_path col key with p | e | m
          · simp only [hgp] at h
            rcases hrec : s.write_to_external (extPut ext p value) rest with ⟨e2, evs2⟩ | e | m
            · simp only [hrec, Outcome.ok.injEq, Prod.mk.injEq] at h
              rw [← h.2] at hev
              rcases List.mem_cons.mp hev with hev1 | hev2
              · exact ⟨p, value, hev1⟩
              · exact ih (extPut ext p value) e2 evs2 hrec ev hev2
            · simp only [hrec] at h
              exact absurd h (by simp)
            · simp only [hrec] at h
              exact absurd h (by simp)
          · simp only [hgp] at h
            exact absurd h (by simp)
          · simp only [hgp] at h
            exact absurd h (by simp)
    | .insert col key value =>
      rw [write_to_external_cons_insert] at h
      exact absurd h (by simp)
    | .delete col key =>
      rw [write_to_external_cons_delete] at h
      exact absurd h (by simp)
    | .deleteAll col =>
      rw [write_to_external_cons_deleteAll] at h
      exact absurd h (by simp)
    | .deleteRange col k1 k2 =>
      rw [write_to_external_cons_deleteRange] at h
      exact absurd h (by simp)

theorem filter_singleton_length_le (p : WEvent → Bool) (x : WEvent) :
    (List.filter p [x]).length ≤ 1 := by
  by_cases hp : p x = true <;> simp [List.filter, hp]

/-- C10: a store built by `ArchivalStore::new` (in a debug build, where the
`debug_assert!` is active) never pairs a ColdDB archival storage with a
sync-ColdDB mirror, and a successful `write` emits at most one transactional
write to any given ColdDB handle — the transaction is applied to each
database at most once and the same ColdDB is never written twice. The fields
are immutable after construction (every operation of the model takes the
store by value and returns only observations, mirroring the Rust struct with
no `&mut self` methods). -/
theorem c10_no_double_write (storage : ArchivalStorage) (sync : Option Nat)
    (ctp : DBCol → Option (List String)) (s : ArchivalStore)
    (hnew : ArchivalStore.new true storage sync ctp = .ok s) :
    (∀ i, s.storage = .coldDB i → s.sync_cold_db = none)
    ∧ ∀ (st : ArchState) (tx : List DBOp) (st2 : ArchState) (evs : List WEvent),
        s.write st tx = .ok (st2, evs) →
        ∀ i, (evs.filter (WEvent.isColdWriteTo i)).length ≤ 1 := by
  by_cases hc : true = true ∧ storage.isColdDB = true ∧ sync.isSome = true
  · rw [ArchivalStore.new, if_pos hc] at hnew
    exact absurd hnew (by simp)
  · rw [ArchivalStore.new, if_neg hc] at hnew
    rw [Outcome.ok.injEq] at hnew
    subst hnew
    refine ⟨?_, ?_⟩
    · intro i hi
      simp only at hi
      have hsync : ¬ sync.isSome = true := fun hy => hc ⟨rfl, by rw [hi]; rfl, hy⟩
      exact Option.not_isSome_iff_eq_none.mp hsync
    · intro st tx st2 evs hw i
      cases storage with
      | coldDB j =>
        simp only [ArchivalStore.write, Outcome.ok.injEq, Prod.mk.injEq] at hw
        rw [← hw.2]
        exact filter_singleton_length_le _ _
      | external =>
        cases hsy : sync with
        | none =>
          simp only [ArchivalStore.write, hsy] at hw
          rcases hrec : ArchivalStore.write_to_external ⟨.external, none, ctp⟩ st.ext tx with
            ⟨e2, evs2⟩ | e | m
          · simp only [hrec, Outcome.ok.injEq, Prod.mk.injEq] at hw
            have hput := write_to_external_events_are_puts _ tx st.ext e2 evs2 hrec
            have hnil : evs.filter (WEvent.isColdWriteTo i) = [] := by
              rw [← hw.2]
              rw [List.filter_eq_nil_iff]
              intro ev hev
              obtain ⟨p, v, hpv⟩ := hput ev hev
              rw [hpv]
              simp [WEvent.isColdWriteTo]
            rw [hnil]
            simp
          · simp only [hrec] at hw
            exact absurd hw (by simp)
          · simp only [hrec] at hw
            exact absurd hw (by simp)
        | some j =>
          simp only [ArchivalStore.write, hsy] at hw
          rcases hrec : ArchivalStore.write_to_external ⟨.external, some j, ctp⟩ st.ext tx with
            ⟨e2, evs2⟩ | e | m
          · simp only [hrec, Outcome.ok.injEq, Prod.mk.injEq] at hw
            have hput := write_to_external_events_are_puts _ tx st.ext e2 evs2 hrec
            have hnil : evs2.filter (WEvent.isColdWriteTo i) = [] := by
              rw [List.filter_eq_nil_iff]
              intro ev hev
              obtain ⟨p, v, hpv⟩ := hput ev hev
              rw [hpv]
              simp [WEvent.isColdWriteTo]
            rw [← hw.2, List.filter_cons]
            by_cases hji : WEvent.isColdWriteTo i (.coldWrite j tx) = true <;>
              simp [hji, hnil]
          · simp only [hrec] at hw
            exact absurd hw (by simp)
          · simp only [hrec] at hw
            exact absurd hw (by simp)

/-- Witness for C10: a store over an external storage with mirror handle `0`,
built by `new` in a debug build. -/
theorem c10_no_double_write_witness :
    (∀ i, (ArchivalStore.mk .external (some 0) (fun _ => some ["BlockMisc"])).storage =
        .coldDB i →
      (ArchivalStore.mk .external (some 0) (fun _ => some ["BlockMisc"])).sync_cold_db = none)
    ∧ ∀ (st : ArchState) (tx : List DBOp) (st2 : ArchState) (evs : List WEvent),
        (ArchivalStore.mk .external (some 0) (fun _ => some ["BlockMisc"])).write st tx =
          .ok (st2, evs) →
        ∀ i, (evs.filter (WEvent.isColdWriteTo i)).length ≤ 1 :=
  c10_no_double_write .external (some 0) (fun _ => some ["BlockMisc"])
    (ArchivalStore.mk .external (some 0) (fun _ => some ["BlockMisc"])) rfl
